import Mathlib

/-!
Verification of the retrieval-and-answer pipeline of the RAG chatbot backend.

The JavaScript sources (`src/services/EmbeddingService.js`,
`src/services/RAGService.js`, `src/routes/chat.js`) are shallowly embedded
below.  JS strings are modelled as `List Char` (the test inputs are ASCII, so
UTF-16 code-unit counting coincides with character counting), JS numbers in
the embedding layer as `ℚ`, and the floating-point arithmetic of
`calculateCosineSimilarity` over the reals.  Network calls (axios, Qdrant) are
modelled by explicit parameters: the embedding provider and the generation
provider become function arguments, `Math.random()` becomes an oracle
argument, and a thrown JS exception becomes `Except.error`.
-/

/-- JS strings, modelled as lists of characters. -/
abbrev Str := List Char

deriving instance DecidableEq for Except

namespace JsStr

/-- Membership in the JS regex class `\s` (also the set removed by
`String.prototype.trim`): ASCII whitespace plus the Unicode space
characters and the BOM. -/
def isJsWS (c : Char) : Bool :=
  c = ' ' || c = '\t' || c = '\n' || c = '\r' ||
  c = '\u000B' || c = '\u000C' || c = '\u00A0' ||
  c = '\u1680' ||
  ('\u2000' ≤ c && c ≤ '\u200A') ||
  c = '\u2028' || c = '\u2029' || c = '\u202F' ||
  c = '\u205F' || c = '\u3000' || c = '\uFEFF'

/-- Membership in the JS regex class `\w`: `[A-Za-z0-9_]`. -/
def isWordChar (c : Char) : Bool :=
  ('a' ≤ c && c ≤ 'z') || ('A' ≤ c && c ≤ 'Z') ||
  ('0' ≤ c && c ≤ '9') || c = '_'

/-- The characters kept by `cleanText`'s second replace
(`/[^\w\s\.,!?-]/g` removes everything else). -/
def keepChar (c : Char) : Bool :=
  isWordChar c || isJsWS c || c = '.' || c = ',' || c = '!' || c = '?' || c = '-'

/-- Worker for `collapseWS`; the flag records whether the previous character
belonged to a whitespace run that has already emitted its single space. -/
def collapseWSGo : Bool → Str → Str
  | _, [] => []
  | prevWS, c :: rest =>
    if isJsWS c then
      if prevWS then collapseWSGo true rest
      else ' ' :: collapseWSGo true rest
    else c :: collapseWSGo false rest

/-- JS `text.replace(/\s+/g, ' ')`: every maximal whitespace run becomes a
single space. -/
def collapseWS (l : Str) : Str := collapseWSGo false l

/-- Strip leading JS whitespace. -/
def trimStart (l : Str) : Str := l.dropWhile isJsWS

/-- Strip trailing JS whitespace (structural formulation). -/
def trimEnd : Str → Str
  | [] => []
  | c :: rest =>
    match trimEnd rest with
    | [] => if isJsWS c then [] else [c]
    | r => c :: r

/-- JS `String.prototype.trim()`. -/
def trimBoth (l : Str) : Str := trimEnd (trimStart l)

end JsStr

open JsStr

/-- Source `EmbeddingService.cleanText`:
`text.replace(/\s+/g, ' ').replace(/[^\w\s\.,!?-]/g, '').trim().substring(0, 8000)`.
The `!text || typeof text !== 'string'` guard returns `''` for non-string
input; the model's domain is strings, where the guard maps `''` to `''`,
which the pipeline below also does. -/
def cleanText (l : Str) : Str :=
  (trimBoth ((collapseWS l).filter keepChar)).take 8000

/-- Model of `this.cleanText(text).substring(0, 8000)`, the per-text cleaning applied
inside `generateEmbeddings` (the outer `substring` repeats the one already
inside `cleanText`). -/
def cleanFull (l : Str) : Str := (cleanText l).take 8000

/-- One item of the Jina response body `response.data.data`:
`{ embedding: number[], index: int }`. -/
structure RespItem where
  embedding : List ℚ
  index : Nat
  deriving DecidableEq

/-- The axios result for the embedding call, as far as `generateEmbeddings`
inspects it: a thrown error (timeout, non-2xx, network) is `Except.error`
with the JS error message; `none` models a 2xx body failing the
`!response.data || !response.data.data` check. -/
abbrev JinaResponse := Except Str (Option (List RespItem))

/-- An element of the array `generateEmbeddings` resolves with:
`{ embedding, text, dimensions }`.  `text` is `Option`al because
`cleanedTexts[item.index]` is `undefined` when `item.index` is out of
range. -/
structure EmbItem where
  embedding : List ℚ
  text : Option Str
  dimensions : Nat
  deriving DecidableEq

/-- Source `EmbeddingService.generateDummyEmbeddings`: one vector of 512 values of
`Math.random() * 2 - 1` per text.  Randomness is abstracted by the oracle
`rand` (text position, coordinate) ↦ value. -/
def generateDummyEmbeddings (rand : Nat → Nat → ℚ) (texts : List Str) :
    List EmbItem :=
  texts.enum.map fun it =>
    { embedding := (List.range 512).map (rand it.1)
      text := some (cleanText it.2)
      dimensions := 512 }

/-- Source `EmbeddingService.generateEmbeddings`.  `devMode` is
`process.env.NODE_ENV === 'development'`; `provider` is the axios POST to the
Jina endpoint, applied to the cleaned batch.  The empty-input throw and the
invalid-response throw happen inside the same `try`, so in `devMode` they,
too, are converted into dummy embeddings by the `catch`. -/
def generateEmbeddings (devMode : Bool)
    (provider : List Str → JinaResponse) (rand : Nat → Nat → ℚ)
    (texts : List Str) : Except Str (List EmbItem) :=
  let inputTexts := texts
  let body : Except Str (List EmbItem) :=
    if inputTexts.length = 0 then
      .error ("No texts provided for embedding".toList)
    else
      let cleanedTexts := inputTexts.map cleanFull
      match provider cleanedTexts with
      | .error e => .error e
      | .ok none => .error ("Invalid response from Jina API".toList)
      | .ok (some data) =>
        .ok (data.map fun item =>
          { embedding := item.embedding
            text := cleanedTexts[item.index]?
            dimensions := item.embedding.length })
  match body with
  | .ok r => .ok r
  | .error e => if devMode then .ok (generateDummyEmbeddings rand inputTexts) else .error e

open Classical in
/-- Source `EmbeddingService.calculateCosineSimilarity`.  JS floating-point numbers
are modelled as real numbers; a thrown `Error` is `Except.error`.  The single
loop accumulating `dotProduct`, `normA`, `normB` runs after the
equal-length guard, so it is rendered with `zipWith`/`map` sums. -/
noncomputable def calculateCosineSimilarity (vectorA vectorB : List ℝ) :
    Except String ℝ :=
  if vectorA.length ≠ vectorB.length then
    .error ("Vectors must have the same dimensions")
  else
    let dotProduct : ℝ := (List.zipWith (fun x y => x * y) vectorA vectorB).sum
    let normA : ℝ := (vectorA.map (fun x => x * x)).sum
    let normB : ℝ := (vectorB.map (fun x => x * x)).sum
    if normA = 0 ∨ normB = 0 then .ok 0
    else .ok (dotProduct / (Real.sqrt normA * Real.sqrt normB))

/-- JS `str.split(' ')`: every single space is a separator (no run
merging, empty segments kept). -/
def splitOnSpaceGo : Str → Str → List Str
  | [], cur => [cur.reverse]
  | c :: rest, cur =>
    if c = ' ' then cur.reverse :: splitOnSpaceGo rest []
    else splitOnSpaceGo rest (c :: cur)

def splitOnSpace (l : Str) : List Str := splitOnSpaceGo l []

/-- Sentence separators of `split(/[.!?]+/)`. -/
def isSentenceSep (c : Char) : Bool := c = '.' || c = '!' || c = '?'

/-- JS `str.split(/[.!?]+/)`: a maximal run of separators ends one segment;
the flag records whether the previous character was a separator (so a run
yields a single boundary). -/
def splitSentencesGo : Str → Str → Bool → List Str
  | [], cur, _ => [cur.reverse]
  | c :: rest, cur, lastSep =>
    if isSentenceSep c then
      if lastSep then splitSentencesGo rest [] true
      else cur.reverse :: splitSentencesGo rest [] true
    else splitSentencesGo rest (c :: cur) false

def splitSentences (l : Str) : List Str := splitSentencesGo l [] false

/-- JS `str.toLowerCase()` (ASCII case mapping, which covers all inputs the
claims exercise). -/
def toLowerStr (l : Str) : Str := l.map Char.toLower

/-- JS `hay.includes(needle)`: contiguous-substring test. -/
def includesSub (hay needle : Str) : Bool :=
  hay.tails.any fun t => needle.isPrefixOf t

/-- The payload fields of an indexed point that `extractRelevantText` and
the chat route read. -/
structure ArticlePayload where
  title : Str
  description : Str
  content : Str
  url : Str
  source : Str
  publishDate : Str
  deriving DecidableEq

/-- Model of `query.toLowerCase().split(' ').filter(word => word.length > 2)`. -/
def relQueryWords (query : Str) : List Str :=
  (splitOnSpace (toLowerStr query)).filter fun w => w.length > 2

/-- Model of `` `${title} ${description} ${content}` ``, split on `[.!?]+` and
filtered by `sentence.length > 20`. -/
def relSentences (articlePayload : ArticlePayload) : List Str :=
  (splitSentences (articlePayload.title ++ (" ".toList) ++
    articlePayload.description ++ (" ".toList) ++
    articlePayload.content)).filter fun s => s.length > 20

/-- Model of `queryWords.filter(word => lowerSentence.includes(word)).length`. -/
def relMatchCount (queryWords : List Str) (s : Str) : Nat :=
  (queryWords.filter fun w => includesSub (toLowerStr s) w).length

/-- One iteration of the best-sentence scan: strict improvement updates
`(bestSentence, maxMatches)` with the trimmed sentence. -/
def bestStep (queryWords : List Str) (acc : Str × Nat) (s : Str) : Str × Nat :=
  if relMatchCount queryWords s > acc.2 then (trimBoth s, relMatchCount queryWords s)
  else acc

/-- Source `RAGService.extractRelevantText(articlePayload, query)`, verbatim:
sentences of `` `${title} ${description} ${content}` `` split on `[.!?]+`,
kept when `length > 20`; query words lowercased, split on `' '`, kept when
`length > 2`; each sentence scored by the number of query words the
lowercased sentence `includes`; a strict-improvement scan keeps the first
maximum (trimmed); `bestSentence || description || content.substring(0,300)`
selects the result. -/
def extractRelevantText (articlePayload : ArticlePayload) (query : Str) : Str :=
  let queryWords := relQueryWords query
  let best := (relSentences articlePayload).foldl (bestStep queryWords)
    (([] : Str), 0)
  if best.1 ≠ [] then best.1
  else if articlePayload.description ≠ [] then articlePayload.description
  else articlePayload.content.take 300

/-- JS falsy-default on strings: `a || b`. -/
def orElseStr (a b : Str) : Str := if a = [] then b else a

/-- Decimal rendering of a number interpolated into a template literal. -/
def natStr (n : Nat) : Str := Nat.toDigits 10 n

/-- One retrieval hit as produced by `retrieveRelevantPassages` and consumed
by `generateAnswer` and the chat route. -/
structure RetrievalResult where
  title : Str
  content : Str
  description : Str
  url : Str
  source : Str
  publishDate : Str
  similarity : ℚ
  relevantText : Str
  deriving DecidableEq

/-- The Gemini call: the assembled prompt goes out, and either an error is
thrown (`Except.error`) or the optional chain
`response.data?.candidates?.[0]?.content?.parts?.[0]?.text` yields
`none` (missing field) or `some` text. -/
abbrev GenProvider := Str → Except Unit (Option Str)

def noRelevantNewsMsg : Str :=
  "I couldn\x27t find any relevant news. Please try rephrasing your question.".toList

def emptyGenerationMsg : Str :=
  "Sorry, I couldn’t generate a response.".toList

def tryAgainLaterMsg : Str :=
  "I’m having trouble generating a response right now. Please try again later.".toList

/-- The `catch`-branch summary built from `context[0]`:
`` `Summary of most relevant article:\n\nTitle: ${title}\n${description || content.substring(0, 200)}...` ``. -/
def extractiveFallback (c0 : RetrievalResult) : Str :=
  ("Summary of most relevant article:\n\nTitle: ".toList) ++ c0.title ++
    ("\n".toList) ++ orElseStr c0.description (c0.content.take 200) ++ ("...".toList)

/-- The grounding prompt `generateAnswer` assembles before calling the
generation provider. -/
def assembledPrompt (query : Str) (context : List RetrievalResult) : Str :=
  let contextText :=
    (List.intersperse ("\n".toList) ((context.enum).map fun ia =>
      ("Article ".toList) ++ natStr (ia.1 + 1) ++ (":\nTitle: ".toList) ++
        ia.2.title ++ ("\nContent: ".toList) ++
        orElseStr ia.2.relevantText
          (orElseStr ia.2.description (ia.2.content.take 500)) ++
        ("\nSource: ".toList) ++ ia.2.source ++ ("\nDate: ".toList) ++
        ia.2.publishDate ++ ("\n---".toList))).flatten
  ("You are a helpful news assistant. Use only these articles to answer the question.\n\nContext:\n".toList) ++
    contextText ++ ("\n\nUser Question: ".toList) ++ query ++ ("\n\nAnswer:".toList)

/-- Source `RAGService.generateAnswer(query, context)`.  `context` is `Option`al
because the JS guard `!context || context.length === 0` also accepts
`null`/`undefined`.  A provider throw lands in the `catch`, which answers
with the extractive fallback when `context` is non-empty. -/
def generateAnswer (provider : GenProvider) (query : Str)
    (context : Option (List RetrievalResult)) : Str :=
  match context with
  | none => noRelevantNewsMsg
  | some ctx =>
    if ctx.length = 0 then noRelevantNewsMsg
    else
      match provider (assembledPrompt query ctx) with
      | .ok answer =>
        match answer with
        | some t => if t = [] then emptyGenerationMsg else t
        | none => emptyGenerationMsg
      | .error _ =>
        match ctx with
        | c0 :: _ => extractiveFallback c0
        | [] => tryAgainLaterMsg

/-- An article as delivered by the ingestion collaborator; fields are
`Option`al because `storeArticles` defends each one with `|| <default>`. -/
structure Article where
  title : Option Str
  description : Option Str
  content : Option Str
  link : Option Str
  pubDate : Option Str
  source : Option Str
  category : Option Str
  deriving DecidableEq

structure PointPayload where
  title : Str
  description : Str
  content : Str
  url : Str
  publishDate : Str
  source : Str
  category : Str
  createdAt : Str
  deriving DecidableEq

/-- A Qdrant point `{id, vector, payload}` built by `storeArticles`. -/
structure IndexedPoint where
  id : Nat
  vector : List ℚ
  payload : PointPayload
  deriving DecidableEq

/-- The embedding backend wiring of a `RAGService` instance (environment
mode, axios provider, `Math.random` oracle). -/
structure EmbedConfig where
  devMode : Bool
  provider : List Str → JinaResponse
  rand : Nat → Nat → ℚ

/-- The per-article body of the `storeArticles` loop, up to obtaining the
vector: build `` `${title || ''} ${description || ''} ${content || ''}` ``,
call `generateEmbeddings([text])` and read `embeddings[0].embedding`
(reading `[0]` of an empty array throws a `TypeError`). -/
def embedArticle (cfg : EmbedConfig) (article : Article) : Except Str (List ℚ) :=
  let text := article.title.getD [] ++ (" ".toList) ++
    article.description.getD [] ++ (" ".toList) ++ article.content.getD []
  match generateEmbeddings cfg.devMode cfg.provider cfg.rand [text] with
  | .error e => .error e
  | .ok [] => .error ("TypeError: cannot read embedding of undefined".toList)
  | .ok (first :: _) => .ok first.embedding

/-- The point pushed for the `i`-th article (`id: i + 1`); `now` models
`new Date().toISOString()`. -/
def mkPoint (i : Nat) (article : Article) (v : List ℚ) (now : Str) : IndexedPoint :=
  { id := i + 1
    vector := v
    payload :=
      { title := article.title.getD []
        description := article.description.getD []
        content := article.content.getD []
        url := article.link.getD []
        publishDate := article.pubDate.getD now
        source := article.source.getD ("Unknown".toList)
        category := article.category.getD ("General".toList)
        createdAt := now } }

/-- The `for` loop of `storeArticles`: the first embedding error escapes to
the function-level `catch`, which rethrows it. -/
def storeArticlesGo (cfg : EmbedConfig) (now : Str) :
    Nat → List Article → Except Str (List IndexedPoint)
  | _, [] => .ok []
  | i, a :: rest =>
    match embedArticle cfg a with
    | .error e => .error e
    | .ok v =>
      match storeArticlesGo cfg now (i + 1) rest with
      | .error e => .error e
      | .ok pts => .ok (mkPoint i a v now :: pts)

/-- Source `RAGService.storeArticles(articles)`: embed every article, then upsert
the accumulated points in one batch and return `points.length`.  The Qdrant
upsert itself is modelled as acknowledged success (the claims under test
concern embedding failures). -/
def storeArticles (cfg : EmbedConfig) (now : Str) (articles : List Article) :
    Except Str Nat :=
  match storeArticlesGo cfg now 0 articles with
  | .error e => .error e
  | .ok pts => .ok pts.length

/-- A raw Qdrant search hit: payload plus similarity score. -/
structure SearchHit where
  payload : ArticlePayload
  score : ℚ
  deriving DecidableEq

/-- The mapping `retrieveRelevantPassages` applies to each search hit. -/
def toPassage (query : Str) (hit : SearchHit) : RetrievalResult :=
  { title := hit.payload.title
    content := hit.payload.content
    description := hit.payload.description
    url := hit.payload.url
    source := hit.payload.source
    publishDate := hit.payload.publishDate
    similarity := hit.score
    relevantText := extractRelevantText hit.payload query }

/-- Source `RAGService.retrieveRelevantPassages` after the Qdrant call: the search
itself is external, so the hit list is a parameter. -/
def retrieveRelevantPassages (query : Str) (searchResult : List SearchHit) :
    List RetrievalResult :=
  searchResult.map (toPassage query)

/-- JS `Math.round(x * 100) / 100` (round half toward positive infinity). -/
def round2 (q : ℚ) : ℚ := ((⌊q * 100 + 1 / 2⌋ : ℤ) : ℚ) / 100

/-- One element of the `sources` array the chat route returns. -/
structure SourceEntry where
  title : Str
  source : Str
  url : Str
  similarity : ℚ
  deriving DecidableEq

/-- The core of `POST /api/chat/:sessionId` (chat.js lines 54–81): retrieve
passages, generate the answer from them, and derive the `sources` list from
the same passages. -/
def chatRespond (genProvider : GenProvider) (message : Str)
    (searchResult : List SearchHit) : Str × List SourceEntry :=
  let relevantPassages := retrieveRelevantPassages message searchResult
  let aiResponse := generateAnswer genProvider message (some relevantPassages)
  (aiResponse,
    relevantPassages.map fun passage =>
      { title := passage.title
        source := passage.source
        url := passage.url
        similarity := round2 passage.similarity })

/-- The maximum sentence score (0 when there are no sentences). -/
def relMaxScore (queryWords : List Str) (sentences : List Str) : Nat :=
  sentences.foldr (fun s acc => max (relMatchCount queryWords s) acc) 0

/-- No two adjacent whitespace characters. -/
def noTwoWS : Str → Bool
  | [] => true
  | [_] => true
  | a :: b :: rest => (!(isJsWS a && isJsWS b)) && noTwoWS (b :: rest)

/-- A concrete embedding provider that fails exactly on texts containing
`"bad"` and otherwise answers in order with one-dimensional vectors. -/
def c1provider : List Str → JinaResponse := fun ts =>
  if ts.any (fun t => includesSub t ("bad".toList)) then
    .error ("embed failed".toList)
  else
    .ok (some ((List.range ts.length).map fun j => ⟨[1], j⟩))

def c1cfg : EmbedConfig :=
  { devMode := false, provider := c1provider, rand := fun _ _ => 0 }

def c1good : Article :=
  { title := some ("Good news today".toList)
    description := some ("fine desc".toList)
    content := some ("fine content".toList)
    link := none, pubDate := none, source := none, category := none }

def c1bad : Article :=
  { title := some ("bad".toList)
    description := some ("bad desc".toList)
    content := some ("bad content".toList)
    link := none, pubDate := none, source := none, category := none }

/-- The payload of the C6 counterexample: its combined text
`" dd .relevant needle here."` has exactly one sentence of exactly 20
characters (`"relevant needle here"`), which contains the query word. -/
def c6pay : ArticlePayload :=
  { title := []
    description := ("dd".toList)
    content := (".relevant needle here.".toList)
    url := [], source := [], publishDate := [] }

/-- The claim's reading of the sentence filter ("discards sentences shorter
than 20 characters", i.e. keeps those of length ≥ 20); identical to
`extractRelevantText` in every other respect. -/
def claimExtractRelevantText (articlePayload : ArticlePayload)
    (query : Str) : Str :=
  let queryWords := relQueryWords query
  let sentences := (splitSentences (articlePayload.title ++ (" ".toList) ++
    articlePayload.description ++ (" ".toList) ++
    articlePayload.content)).filter fun s => s.length ≥ 20
  let best := sentences.foldl (bestStep queryWords) (([] : Str), 0)
  if best.1 ≠ [] then best.1
  else if articlePayload.description ≠ [] then articlePayload.description
  else articlePayload.content.take 300

/-- The payload of the C6 witness: one 21-character sentence containing the
query word, so the code's own filter keeps it. -/
def c6wpay : ArticlePayload :=
  { title := []
    description := ("dd".toList)
    content := (".relevant needle herex.".toList)
    url := [], source := [], publishDate := [] }

/-- Left part of a non-empty append chain is non-empty. -/
lemma append_ne_nil_left {a b : Str} (h : a ≠ []) : a ++ b ≠ [] := by
  intro hab
  exact h (List.append_eq_nil.mp hab).1

/-- C9: for every query, `generateAnswer` on a `null`/`undefined` or empty
context returns the fixed "no relevant news, please rephrase" message, and
the result does not depend on the generation provider (no outbound call is
made). -/
theorem generateAnswer_no_context_terminal (p₁ p₂ : GenProvider) (query : Str) :
    generateAnswer p₁ query none = noRelevantNewsMsg ∧
    generateAnswer p₁ query (some []) = noRelevantNewsMsg ∧
    noRelevantNewsMsg ≠ [] ∧
    generateAnswer p₁ query none = generateAnswer p₂ query none ∧
    generateAnswer p₁ query (some []) = generateAnswer p₂ query (some []) :=
  ⟨rfl, rfl, by decide, rfl, rfl⟩

/-- C2: `generateAnswer` always returns non-empty text (never an exception),
and when the provider call fails on a non-empty context the answer is the
extractive fallback built from `context[0]` (title, then description or the
first 200 characters of content). -/
theorem generateAnswer_total_with_extractive_fallback
    (provider : GenProvider) (query : Str)
    (octx : Option (List RetrievalResult)) :
    generateAnswer provider query octx ≠ [] ∧
    (∀ c0 rest, octx = some (c0 :: rest) →
      provider (assembledPrompt query (c0 :: rest)) = .error () →
      generateAnswer provider query octx = extractiveFallback c0) := by
  constructor
  · match octx with
    | none => exact (by decide : noRelevantNewsMsg ≠ [])
    | some [] => exact (by decide : noRelevantNewsMsg ≠ [])
    | some (c0 :: rest) =>
      simp only [generateAnswer]
      rw [if_neg (by simp)]
      cases hp : provider (assembledPrompt query (c0 :: rest)) with
      | ok ans =>
        cases ans with
        | some t =>
          by_cases ht : t = []
          · simp only [ht, if_pos rfl]
            exact (by decide : emptyGenerationMsg ≠ [])
          · simp only [if_neg ht]
            exact ht
        | none => exact (by decide : emptyGenerationMsg ≠ [])
      | error u =>
        exact append_ne_nil_left (append_ne_nil_left (append_ne_nil_left
          (append_ne_nil_left (by decide))))
  · intro c0 rest heq hfail
    subst heq
    simp only [generateAnswer]
    rw [if_neg (by simp), hfail]

/-- C2 witness: with an unreachable provider and a one-element context, the
answer is exactly the extractive fallback of that element, and is
non-empty. -/
theorem generateAnswer_total_with_extractive_fallback_witness :
    generateAnswer (fun _ => .error ()) ("q".toList)
        (some [{ title := ("t".toList), content := ("c".toList),
                 description := ("d".toList), url := [], source := [],
                 publishDate := [], similarity := 1, relevantText := [] }]) =
      extractiveFallback
        { title := ("t".toList), content := ("c".toList),
          description := ("d".toList), url := [], source := [],
          publishDate := [], similarity := 1, relevantText := [] } ∧
    generateAnswer (fun _ => .error ()) ("q".toList)
        (some [{ title := ("t".toList), content := ("c".toList),
                 description := ("d".toList), url := [], source := [],
                 publishDate := [], similarity := 1, relevantText := [] }]) ≠ [] := by
  have h := generateAnswer_total_with_extractive_fallback (fun _ => .error ())
    ("q".toList)
    (some [{ title := ("t".toList), content := ("c".toList),
             description := ("d".toList), url := [], source := [],
             publishDate := [], similarity := 1, relevantText := [] }])
  exact ⟨h.2 _ _ rfl rfl, h.1⟩

/-- C10: the extracted relevant text can be the empty string — an article
whose description and content are empty (and whose combined text has no
sentence longer than 20 characters) yields `''` for any query. -/
theorem extractRelevantText_empty_possible :
    ∃ (p : ArticlePayload) (q : Str),
      p.description = [] ∧ p.content = [] ∧ extractRelevantText p q = [] :=
  ⟨{ title := [], description := [], content := [], url := [], source := [],
     publishDate := [] }, "anything".toList, rfl, rfl, by decide⟩

/-- C7: when the embedding provider call fails, development mode substitutes
one dummy vector per input text (each with `dimensions = 512` and a
512-entry random vector) and does not raise, while any other mode
propagates the same error to the caller. -/
theorem generateEmbeddings_failure_fallback_modes
    (provider : List Str → JinaResponse) (rand : Nat → Nat → ℚ)
    (texts : List Str) (e : Str)
    (hne : texts ≠ [])
    (hfail : provider (texts.map cleanFull) = .error e) :
    generateEmbeddings true provider rand texts =
      .ok (generateDummyEmbeddings rand texts) ∧
    (generateDummyEmbeddings rand texts).length = texts.length ∧
    (∀ item ∈ generateDummyEmbeddings rand texts,
      item.dimensions = 512 ∧ item.embedding.length = 512) ∧
    generateEmbeddings false provider rand texts = .error e := by
  have hlen : ¬ texts.length = 0 := by simpa using hne
  refine ⟨?_, ?_, ?_, ?_⟩
  · simp [generateEmbeddings, hlen, hfail]
  · simp [generateDummyEmbeddings]
  · intro item hitem
    simp only [generateDummyEmbeddings, List.mem_map] at hitem
    obtain ⟨it, _, rfl⟩ := hitem
    exact ⟨rfl, by simp⟩
  · simp [generateEmbeddings, hlen, hfail]

/-- C7 witness: a concrete failing provider on a singleton batch. -/
theorem generateEmbeddings_failure_fallback_modes_witness :
    generateEmbeddings true (fun _ => .error ("boom".toList)) (fun _ _ => 0)
        [("hi".toList)] =
      .ok (generateDummyEmbeddings (fun _ _ => 0) [("hi".toList)]) ∧
    generateEmbeddings false (fun _ => .error ("boom".toList)) (fun _ _ => 0)
        [("hi".toList)] = .error ("boom".toList) := by
  have h := generateEmbeddings_failure_fallback_modes
    (fun _ => .error ("boom".toList)) (fun _ _ => 0) [("hi".toList)]
    ("boom".toList) (by decide) rfl
  exact ⟨h.1, h.2.2.2⟩

/-- C3 counterexample: when the provider returns its items out of input
order, `generateEmbeddings` keeps the *response* order, so entry 0 carries
the normalization of `texts[1]`, not of `texts[0]` — the claim's
"output order matches input order regardless of the order of items in the
provider response" fails. -/
theorem generateEmbeddings_order_counterexample :
    generateEmbeddings false
        (fun _ => .ok (some [⟨[1], 1⟩, ⟨[2], 0⟩])) (fun _ _ => 0)
        [("aaaa".toList), ("bbbb".toList)] =
      .ok [{ embedding := [1], text := some ("bbbb".toList), dimensions := 1 },
           { embedding := [2], text := some ("aaaa".toList), dimensions := 1 }] ∧
    some ("bbbb".toList) ≠ (some (cleanFull ("aaaa".toList)) : Option Str) ∧
    ("bbbb".toList) = cleanFull ("bbbb".toList) :=
  ⟨by decide, by decide, by decide⟩

/-- C3 (amended): on provider success the output has one entry per
*response* item, in response order, entry `j` carrying the embedding of
response item `j`, the normalized input text at position `item.index`, and
`dimensions = embedding.length`; consequently, whenever the response lists
exactly one item per input text with `index` equal to its position, entry
`i` corresponds to `texts[i]`. -/
theorem generateEmbeddings_success_order
    (devMode : Bool) (provider : List Str → JinaResponse)
    (rand : Nat → Nat → ℚ) (texts : List Str) (data : List RespItem)
    (hne : texts ≠ [])
    (hok : provider (texts.map cleanFull) = .ok (some data)) :
    ∃ out, generateEmbeddings devMode provider rand texts = .ok out ∧
      out.length = data.length ∧
      (∀ j : Nat, out[j]? = data[j]?.map fun item =>
        ({ embedding := item.embedding
           text := (texts.map cleanFull)[item.index]?
           dimensions := item.embedding.length } : EmbItem)) ∧
      (data.length = texts.length →
       (∀ (j : Nat) (item : RespItem), data[j]? = some item → item.index = j) →
       ∀ (i : Nat) (t : Str), texts[i]? = some t →
         ∃ item : RespItem, data[i]? = some item ∧
           out[i]? = some { embedding := item.embedding
                            text := some (cleanFull t)
                            dimensions := item.embedding.length }) := by
  have hlen : ¬ texts.length = 0 := by simpa using hne
  refine ⟨data.map (fun item =>
      ({ embedding := item.embedding
         text := (texts.map cleanFull)[item.index]?
         dimensions := item.embedding.length } : EmbItem)),
    by simp [generateEmbeddings, hlen, hok], by simp,
    fun j => List.getElem?_map _ _ _, ?_⟩
  intro hdl hidx i t ht
  have hi : i < texts.length := by
    by_contra hge
    rw [List.getElem?_eq_none (by omega)] at ht
    cases ht
  have hid : i < data.length := by omega
  refine ⟨data[i], List.getElem?_eq_getElem hid, ?_⟩
  rw [List.getElem?_map, List.getElem?_eq_getElem hid]
  have hix : (data[i]).index = i := hidx i data[i] (List.getElem?_eq_getElem hid)
  rw [Option.map_some']
  have hmc : (texts.map cleanFull)[(data[i]).index]? = some (cleanFull t) := by
    rw [hix, List.getElem?_map, List.getElem?_eq_getElem hi]
    have hti : texts[i] = t := by
      have h2 := List.getElem?_eq_getElem hi
      rw [ht] at h2
      exact (Option.some_inj.mp h2).symm
    rw [hti]
    rfl
  rw [hmc]

/-- C3 witness: an in-order two-item response keeps entry 0 aligned with
`texts[0]`. -/
theorem generateEmbeddings_success_order_witness :
    Except.map (fun out => out[0]?.map EmbItem.text)
        (generateEmbeddings false
          (fun _ => .ok (some [⟨[1], 0⟩, ⟨[2], 1⟩])) (fun _ _ => 0)
          [("aaaa".toList), ("bbbb".toList)]) =
      .ok (some (some (cleanFull ("aaaa".toList)))) := by
  obtain ⟨out, h1, _, _, h4⟩ := generateEmbeddings_success_order false
    (fun _ => .ok (some [⟨[1], 0⟩, ⟨[2], 1⟩])) (fun _ _ => 0)
    [("aaaa".toList), ("bbbb".toList)] [⟨[1], 0⟩, ⟨[2], 1⟩]
    (by decide) rfl
  obtain ⟨item, hd, ho⟩ := h4 (by decide)
    (by
      intro j item h
      match j with
      | 0 =>
        injection h with h'
        rw [← h']
        rfl
      | 1 =>
        injection h with h'
        rw [← h']
        rfl
      | n + 2 =>
        rw [List.getElem?_eq_none (by simp)] at h
        cases h)
    0 ("aaaa".toList) rfl
  rw [h1]
  simp only [Except.map]
  rw [ho]
  rfl

/-- C8: the `sources` list returned by the chat route is derived exactly,
and in order, from the retrieval results passed as context to
`generateAnswer`: same length, entry `i` projecting entry `i`'s title,
source, url and two-decimal-rounded similarity — equivalently, entry `i`
projects search hit `i`. -/
theorem chatRespond_source_fidelity (genProvider : GenProvider)
    (message : Str) (searchResult : List SearchHit) :
    (chatRespond genProvider message searchResult).1 =
      generateAnswer genProvider message
        (some (retrieveRelevantPassages message searchResult)) ∧
    (chatRespond genProvider message searchResult).2.length =
      (retrieveRelevantPassages message searchResult).length ∧
    (∀ i : Nat, (chatRespond genProvider message searchResult).2[i]? =
      ((retrieveRelevantPassages message searchResult)[i]?).map fun passage =>
        ({ title := passage.title, source := passage.source,
           url := passage.url,
           similarity := round2 passage.similarity } : SourceEntry)) ∧
    (∀ i : Nat, (chatRespond genProvider message searchResult).2[i]? =
      (searchResult[i]?).map fun hit =>
        ({ title := hit.payload.title, source := hit.payload.source,
           url := hit.payload.url,
           similarity := round2 hit.score } : SourceEntry)) := by
  refine ⟨rfl, by simp [chatRespond], fun i => ?_, fun i => ?_⟩
  · exact List.getElem?_map _ _ _
  · simp only [chatRespond, retrieveRelevantPassages, List.map_map,
      List.getElem?_map]
    rfl

/-- When every article in the list embeds successfully, the loop produces
one point per article. -/
lemma storeArticlesGo_all_ok (cfg : EmbedConfig) (now : Str) :
    ∀ (articles : List Article) (i : Nat),
      (∀ a ∈ articles, ∃ v, embedArticle cfg a = .ok v) →
      ∃ pts, storeArticlesGo cfg now i articles = .ok pts ∧
        pts.length = articles.length := by
  intro articles
  induction articles with
  | nil => exact fun i _ => ⟨[], rfl, rfl⟩
  | cons a rest ih =>
    intro i hall
    obtain ⟨v, hv⟩ := hall a (by simp)
    obtain ⟨pts, hpts, hlen⟩ := ih (i + 1) (fun b hb => hall b (by simp [hb]))
    exact ⟨mkPoint i a v now :: pts,
      by simp [storeArticlesGo, hv, hpts], by simp [hlen]⟩

/-- The first embedding error in the loop escapes as the loop's result. -/
lemma storeArticlesGo_abort (cfg : EmbedConfig) (now : Str) (a : Article)
    (post : List Article) (e : Str)
    (ha : embedArticle cfg a = .error e) :
    ∀ (pre : List Article) (i : Nat),
      (∀ b ∈ pre, ∃ v, embedArticle cfg b = .ok v) →
      storeArticlesGo cfg now i (pre ++ a :: post) = .error e := by
  intro pre
  induction pre with
  | nil => intro i _; simp [storeArticlesGo, ha]
  | cons b rest ih =>
    intro i hall
    obtain ⟨v, hv⟩ := hall b (by simp)
    simp [storeArticlesGo, hv, ih (i + 1) (fun c hc => hall c (by simp [hc]))]

/-- C1 (amended): `storeArticles` is all-or-nothing with respect to
embedding failures — if every document embeds, it stores and counts all of
them; if any document's embedding fails (after successful predecessors),
the whole call fails with that error and nothing is stored, rather than
skipping the bad document. -/
theorem storeArticles_all_or_nothing (cfg : EmbedConfig) (now : Str) :
    (∀ articles : List Article,
      (∀ a ∈ articles, ∃ v, embedArticle cfg a = .ok v) →
      storeArticles cfg now articles = .ok articles.length) ∧
    (∀ (pre : List Article) (a : Article) (post : List Article) (e : Str),
      (∀ b ∈ pre, ∃ v, embedArticle cfg b = .ok v) →
      embedArticle cfg a = .error e →
      storeArticles cfg now (pre ++ a :: post) = .error e) := by
  constructor
  · intro articles hall
    obtain ⟨pts, hpts, hlen⟩ := storeArticlesGo_all_ok cfg now articles 0 hall
    simp [storeArticles, hpts, hlen]
  · intro pre a post e hpre ha
    simp [storeArticles, storeArticlesGo_abort cfg now a post e ha pre 0 hpre]

/-- C1 counterexample: with `[good, bad, good]` where `bad` fails embedding
(production mode), `storeArticles` raises the embedding error instead of
skipping the bad document and returning 2. -/
theorem storeArticles_abort_counterexample :
    storeArticles c1cfg [] [c1good, c1bad, c1good] =
      .error ("embed failed".toList) ∧
    storeArticles c1cfg [] [c1good, c1bad, c1good] ≠ .ok 2 :=
  ⟨by decide, by decide⟩

/-- C1 witness: the same failing provider aborts the mixed batch with the
embedding error, while the all-good batch stores both documents. -/
theorem storeArticles_all_or_nothing_witness :
    storeArticles c1cfg [] ([c1good] ++ c1bad :: [c1good]) =
      .error ("embed failed".toList) ∧
    storeArticles c1cfg [] [c1good, c1good] = .ok 2 := by
  have h := storeArticles_all_or_nothing c1cfg []
  refine ⟨h.2 [c1good] c1bad [c1good] ("embed failed".toList) ?_ (by decide), ?_⟩
  · intro b hb
    simp only [List.mem_singleton] at hb
    subst hb
    exact ⟨[(1 : ℚ)], by decide⟩
  · refine h.1 [c1good, c1good] ?_
    intro b hb
    simp only [List.mem_cons, List.mem_singleton, List.not_mem_nil, or_false] at hb
    rcases hb with hb | hb <;>
      (subst hb; exact ⟨[(1 : ℚ)], by decide⟩)

/-- The best-sentence scan from accumulator `(b, m)`: if no sentence beats
`m`, the accumulator survives; otherwise the result is the trimmed *first*
sentence attaining the maximum score, with that score. -/
lemma foldl_bestStep_spec (qws : List Str) :
    ∀ (sents : List Str) (b : Str) (m : Nat),
      (relMaxScore qws sents ≤ m →
        sents.foldl (bestStep qws) (b, m) = (b, m)) ∧
      (m < relMaxScore qws sents →
        ∃ s, sents.find?
            (fun t => relMatchCount qws t == relMaxScore qws sents) = some s ∧
          sents.foldl (bestStep qws) (b, m) =
            (trimBoth s, relMaxScore qws sents)) := by
  intro sents
  induction sents with
  | nil =>
    intro b m
    exact ⟨fun _ => rfl, fun h => by simp [relMaxScore] at h⟩
  | cons s rest ih =>
    intro b m
    have hM : relMaxScore qws (s :: rest) =
        max (relMatchCount qws s) (relMaxScore qws rest) := rfl
    constructor
    · intro hle
      rw [hM] at hle
      have hc : relMatchCount qws s ≤ m := le_trans (le_max_left _ _) hle
      have hMm : relMaxScore qws rest ≤ m := le_trans (le_max_right _ _) hle
      simp only [List.foldl_cons, bestStep,
        if_neg (by omega : ¬ relMatchCount qws s > m)]
      exact (ih b m).1 hMm
    · intro hlt
      rw [hM] at hlt
      by_cases hcm : relMatchCount qws s > m
      · simp only [List.foldl_cons, bestStep, if_pos hcm]
        by_cases hMc : relMaxScore qws rest ≤ relMatchCount qws s
        · have hmax : max (relMatchCount qws s) (relMaxScore qws rest) =
              relMatchCount qws s := max_eq_left hMc
          refine ⟨s, ?_, ?_⟩
          · exact List.find?_cons_of_pos _ (by simp [hM, hmax])
          · rw [hM, hmax]
            exact (ih (trimBoth s) (relMatchCount qws s)).1 hMc
        · push_neg at hMc
          have hmax : max (relMatchCount qws s) (relMaxScore qws rest) =
              relMaxScore qws rest := max_eq_right (le_of_lt hMc)
          obtain ⟨s', hfind, hfold⟩ :=
            (ih (trimBoth s) (relMatchCount qws s)).2 hMc
          refine ⟨s', ?_, ?_⟩
          · rw [hM, hmax]
            rw [List.find?_cons_of_neg _ (by simp; omega)]
            exact hfind
          · rw [hM, hmax, hfold]
      · push_neg at hcm
        have hmM : m < relMaxScore qws rest := by omega
        have hmax : max (relMatchCount qws s) (relMaxScore qws rest) =
            relMaxScore qws rest := max_eq_right (by omega)
        simp only [List.foldl_cons, bestStep,
          if_neg (by omega : ¬ relMatchCount qws s > m)]
        obtain ⟨s', hfind, hfold⟩ := (ih b m).2 hmM
        refine ⟨s', ?_, ?_⟩
        · rw [hM, hmax]
          rw [List.find?_cons_of_neg _ (by simp; omega)]
          exact hfind
        · rw [hM, hmax, hfold]

/-- C6 (amended): `extractRelevantText` scores only sentences *longer than*
20 characters (sentences of exactly 20 characters are discarded, unlike the
claim's "shorter than 20" reading); when no sentence scores above 0 it
returns the description, or the first 300 characters of the content when
the description is empty; when some sentence scores positively, the result
is the whitespace-trimmed first sentence attaining the maximum score
(first max wins on ties), falling back to the description chain if that
trimmed sentence is empty. -/
theorem extractRelevantText_characterization (p : ArticlePayload) (q : Str) :
    (relMaxScore (relQueryWords q) (relSentences p) = 0 →
      extractRelevantText p q =
        (if p.description ≠ [] then p.description else p.content.take 300)) ∧
    (0 < relMaxScore (relQueryWords q) (relSentences p) →
      ∃ s, (relSentences p).find?
          (fun t => relMatchCount (relQueryWords q) t ==
            relMaxScore (relQueryWords q) (relSentences p)) = some s ∧
        relMatchCount (relQueryWords q) s =
          relMaxScore (relQueryWords q) (relSentences p) ∧
        extractRelevantText p q =
          (if trimBoth s ≠ [] then trimBoth s
           else if p.description ≠ [] then p.description
           else p.content.take 300)) := by
  constructor
  · intro h0
    have hfold := (foldl_bestStep_spec (relQueryWords q) (relSentences p)
      [] 0).1 (by omega)
    simp only [extractRelevantText, hfold, ne_eq, not_true_eq_false,
      if_false]
  · intro hpos
    obtain ⟨s, hfind, hfold⟩ := (foldl_bestStep_spec (relQueryWords q)
      (relSentences p) [] 0).2 (by omega)
    have hs := List.find?_some hfind
    refine ⟨s, hfind, by simpa using hs, ?_⟩
    simp only [extractRelevantText, hfold]

/-- C6 counterexample: on a 20-character sentence containing the query
word, the claim's filter keeps and returns the sentence while the code
discards it (`s.length > 20`) and falls back to the description. -/
theorem extractRelevantText_boundary_counterexample :
    ("relevant needle here".toList).length = 20 ∧
    claimExtractRelevantText c6pay ("relevant".toList) =
      ("relevant needle here".toList) ∧
    extractRelevantText c6pay ("relevant".toList) = ("dd".toList) ∧
    claimExtractRelevantText c6pay ("relevant".toList) ≠
      extractRelevantText c6pay ("relevant".toList) :=
  ⟨by decide, by decide, by decide, by decide⟩

/-- C6 witness: with a positive maximum score the extractor returns the
first maximum-scoring sentence. -/
theorem extractRelevantText_characterization_witness :
    0 < relMaxScore (relQueryWords ("relevant".toList))
      (relSentences c6wpay) ∧
    extractRelevantText c6wpay ("relevant".toList) =
      ("relevant needle herex".toList) := by
  obtain ⟨s, hfind, hmc, heq⟩ :=
    (extractRelevantText_characterization c6wpay ("relevant".toList)).2
      (by decide)
  have hs : s = ("relevant needle herex".toList) := by
    rw [(by decide : (relSentences c6wpay).find?
        (fun t => relMatchCount (relQueryWords ("relevant".toList)) t ==
          relMaxScore (relQueryWords ("relevant".toList))
            (relSentences c6wpay)) =
      some ("relevant needle herex".toList))] at hfind
    exact (Option.some_inj.mp hfind).symm
  subst hs
  exact ⟨by decide, by rw [heq]; decide⟩

lemma noTwoWS_cons₂ (a b : Char) (rest : Str) :
    noTwoWS (a :: b :: rest) = ((!(isJsWS a && isJsWS b)) && noTwoWS (b :: rest)) :=
  rfl

lemma noTwoWS_tail {a : Char} {l : Str} (h : noTwoWS (a :: l) = true) :
    noTwoWS l = true := by
  cases l with
  | nil => rfl
  | cons b r =>
    rw [noTwoWS_cons₂, Bool.and_eq_true] at h
    exact h.2

lemma noTwoWS_cons_of (a : Char) (l : Str) (h1 : noTwoWS l = true)
    (h2 : ∀ d, l.head? = some d → isJsWS a = false ∨ isJsWS d = false) :
    noTwoWS (a :: l) = true := by
  cases l with
  | nil => rfl
  | cons b r =>
    rw [noTwoWS_cons₂, Bool.and_eq_true]
    refine ⟨?_, h1⟩
    rcases h2 b rfl with h | h <;> simp [h]

lemma noTwoWS_pair {a b : Char} {r : Str}
    (h : noTwoWS (a :: b :: r) = true) (ha : isJsWS a = true) :
    isJsWS b = false := by
  rw [noTwoWS_cons₂, Bool.and_eq_true] at h
  have h1 := h.1
  cases hb : isJsWS b
  · rfl
  · rw [ha, hb] at h1
    cases h1

/-- Every character of the collapsed string is a character of the input or
the single space that replaced a run. -/
lemma collapseWSGo_mem :
    ∀ (l : Str) (bf : Bool) (c : Char), c ∈ collapseWSGo bf l → c = ' ' ∨ c ∈ l := by
  intro l
  induction l with
  | nil => intro bf c h; cases h
  | cons a rest ih =>
    intro bf c h
    cases hws : isJsWS a with
    | true =>
      cases bf with
      | true =>
        simp only [collapseWSGo, hws, if_true] at h
        rcases ih true c h with h1 | h1
        · exact Or.inl h1
        · exact Or.inr (List.mem_cons_of_mem _ h1)
      | false =>
        simp only [collapseWSGo, hws, if_true] at h
        rcases List.mem_cons.mp h with h1 | h1
        · exact Or.inl h1
        · rcases ih true c h1 with h2 | h2
          · exact Or.inl h2
          · exact Or.inr (List.mem_cons_of_mem _ h2)
    | false =>
      simp only [collapseWSGo, hws, Bool.false_eq_true, if_false] at h
      rcases List.mem_cons.mp h with h1 | h1
      · exact Or.inr (h1 ▸ List.mem_cons_self a rest)
      · rcases ih false c h1 with h2 | h2
        · exact Or.inl h2
        · exact Or.inr (List.mem_cons_of_mem _ h2)

/-- Every whitespace character of the collapsed string is a plain space. -/
lemma collapseWSGo_space :
    ∀ (l : Str) (bf : Bool) (c : Char),
      c ∈ collapseWSGo bf l → isJsWS c = true → c = ' ' := by
  intro l
  induction l with
  | nil => intro bf c h; cases h
  | cons a rest ih =>
    intro bf c h hc
    cases hws : isJsWS a with
    | true =>
      cases bf with
      | true =>
        simp only [collapseWSGo, hws, if_true] at h
        exact ih true c h hc
      | false =>
        simp only [collapseWSGo, hws, if_true] at h
        rcases List.mem_cons.mp h with h1 | h1
        · exact h1
        · exact ih true c h1 hc
    | false =>
      simp only [collapseWSGo, hws, Bool.false_eq_true, if_false] at h
      rcases List.mem_cons.mp h with h1 | h1
      · rw [h1] at hc
        rw [hc] at hws
        cases hws
      · exact ih false c h1 hc

/-- The collapsed string has no two adjacent whitespace characters, and in
skip mode it starts with a non-whitespace character. -/
lemma collapseWSGo_invariant :
    ∀ l : Str,
      (∀ bf, noTwoWS (collapseWSGo bf l) = true) ∧
      (∀ d, (collapseWSGo true l).head? = some d → isJsWS d = false) := by
  intro l
  induction l with
  | nil => exact ⟨fun bf => rfl, fun d h => by cases h⟩
  | cons a rest ih =>
    obtain ⟨ihA, ihB⟩ := ih
    constructor
    · intro bf
      cases hws : isJsWS a with
      | true =>
        cases bf with
        | true =>
          simp only [collapseWSGo, hws, if_true]
          exact ihA true
        | false =>
          simp only [collapseWSGo, hws, if_true]
          refine noTwoWS_cons_of _ _ (ihA true) ?_
          intro d hd
          exact Or.inr (ihB d hd)
      | false =>
        simp only [collapseWSGo, hws, Bool.false_eq_true, if_false]
        refine noTwoWS_cons_of _ _ (ihA false) ?_
        intro d _
        exact Or.inl hws
    · intro d hd
      cases hws : isJsWS a with
      | true =>
        simp only [collapseWSGo, hws, if_true] at hd
        exact ihB d hd
      | false =>
        simp only [collapseWSGo, hws, Bool.false_eq_true, if_false] at hd
        injection hd with hd1
        rw [← hd1]
        exact hws

/-- Collapsing is the identity on already-normalized strings (whitespace is
single spaces, no two adjacent). -/
lemma collapseWSGo_eq_self :
    ∀ l : Str, (∀ c ∈ l, isJsWS c = true → c = ' ') → noTwoWS l = true →
      collapseWSGo false l = l ∧
      ((∀ d, l.head? = some d → isJsWS d = false) → collapseWSGo true l = l) := by
  intro l
  induction l with
  | nil => exact fun _ _ => ⟨rfl, fun _ => rfl⟩
  | cons a rest ih =>
    intro hsp htwo
    obtain ⟨ih1, ih2⟩ := ih (fun c hc => hsp c (List.mem_cons_of_mem _ hc))
      (noTwoWS_tail htwo)
    constructor
    · cases hws : isJsWS a with
      | true =>
        have ha : a = ' ' := hsp a (List.mem_cons_self a rest) hws
        simp only [collapseWSGo, hws, if_true]
        have hrest : collapseWSGo true rest = rest := by
          refine ih2 ?_
          intro d hd
          cases rest with
          | nil => cases hd
          | cons b r =>
            injection hd with hd1
            rw [← hd1]
            exact noTwoWS_pair htwo hws
        rw [hrest, ha]
        rfl
      | false =>
        simp only [collapseWSGo, hws, Bool.false_eq_true, if_false]
        rw [ih1]
    · intro hhead
      have hwa : isJsWS a = false := hhead a rfl
      simp only [collapseWSGo, hwa, Bool.false_eq_true, if_false]
      rw [ih1]

@[simp] lemma noTwoWS_nil : noTwoWS [] = true := rfl

@[simp] lemma noTwoWS_single (a : Char) : noTwoWS [a] = true := rfl

/-- One-step unfolding of `trimEnd`. -/
lemma trimEnd_cons (a : Char) (l : Str) :
    trimEnd (a :: l) =
      (match trimEnd l with
        | [] => if isJsWS a then [] else [a]
        | r => a :: r) := rfl

/-- `trimEnd` keeps, or empties, the head. -/
lemma trimEnd_head? : ∀ l : Str, trimEnd l = [] ∨ (trimEnd l).head? = l.head? := by
  intro l
  cases l with
  | nil => exact Or.inl rfl
  | cons c rest =>
    rw [trimEnd_cons]
    cases h : trimEnd rest with
    | nil =>
      cases hws : isJsWS c with
      | true => exact Or.inl (by simp [hws])
      | false => exact Or.inr (by simp [hws])
    | cons x xs => exact Or.inr rfl

lemma trimEnd_mem : ∀ {l : Str} {c : Char}, c ∈ trimEnd l → c ∈ l := by
  intro l
  induction l with
  | nil => intro c h; cases h
  | cons a rest ih =>
    intro c h
    rw [trimEnd_cons] at h
    cases ht : trimEnd rest with
    | nil =>
      rw [ht] at h
      cases hws : isJsWS a with
      | true => rw [hws] at h; simp at h
      | false =>
        rw [hws] at h
        simp at h
        exact h ▸ List.mem_cons_self a rest
    | cons x xs =>
      rw [ht] at h
      rcases List.mem_cons.mp h with h1 | h1
      · exact h1 ▸ List.mem_cons_self a rest
      · exact List.mem_cons_of_mem _ (ih (ht ▸ h1))

lemma noTwoWS_trimEnd : ∀ {l : Str}, noTwoWS l = true → noTwoWS (trimEnd l) = true := by
  intro l
  induction l with
  | nil => intro h; exact h
  | cons a rest ih =>
    intro h
    rw [trimEnd_cons]
    cases ht : trimEnd rest with
    | nil =>
      cases hws : isJsWS a with
      | true => simp [hws]
      | false => simp [hws]
    | cons x xs =>
      have h1 : noTwoWS (x :: xs) = true := ht ▸ ih (noTwoWS_tail h)
      have hrest : rest.head? = some x := by
        rcases trimEnd_head? rest with h2 | h2
        · rw [h2] at ht; cases ht
        · rw [ht] at h2; exact h2.symm
      refine noTwoWS_cons_of _ _ h1 ?_
      intro d hd
      injection hd with hd1
      cases rest with
      | nil => cases hrest
      | cons b r =>
        injection hrest with hr1
        cases hwa : isJsWS a with
        | true =>
          refine Or.inr ?_
          rw [← hd1, ← hr1]
          exact noTwoWS_pair h hwa
        | false => exact Or.inl rfl

lemma trimEnd_idem : ∀ l : Str, trimEnd (trimEnd l) = trimEnd l := by
  intro l
  induction l with
  | nil => rfl
  | cons a rest ih =>
    rw [trimEnd_cons]
    cases ht : trimEnd rest with
    | nil =>
      cases hws : isJsWS a with
      | true =>
        simp only [hws, if_true]
        rfl
      | false =>
        simp only [hws, Bool.false_eq_true, if_false]
        rw [trimEnd_cons]
        simp [hws, trimEnd]
    | cons x xs =>
      have h2 : trimEnd (x :: xs) = x :: xs := by rw [← ht, ih]
      rw [trimEnd_cons, h2]

lemma trimStart_head : ∀ (l : Str) (d : Char),
    (trimStart l).head? = some d → isJsWS d = false := by
  intro l
  induction l with
  | nil => intro d h; cases h
  | cons a rest ih =>
    intro d h
    cases hws : isJsWS a with
    | true =>
      simp only [trimStart, List.dropWhile_cons, hws, if_true] at h
      exact ih d h
    | false =>
      simp only [trimStart, List.dropWhile_cons, hws, Bool.false_eq_true,
        if_false] at h
      injection h with h1
      rw [← h1]
      exact hws

lemma trimStart_of_head_not : ∀ l : Str,
    (∀ d, l.head? = some d → isJsWS d = false) → trimStart l = l := by
  intro l h
  cases l with
  | nil => rfl
  | cons a rest =>
    have hwa : isJsWS a = false := h a rfl
    simp [trimStart, List.dropWhile_cons, hwa]

lemma noTwoWS_trimStart : ∀ {l : Str}, noTwoWS l = true →
    noTwoWS (trimStart l) = true := by
  intro l
  induction l with
  | nil => intro h; exact h
  | cons a rest ih =>
    intro h
    cases hws : isJsWS a with
    | true =>
      simp only [trimStart, List.dropWhile_cons, hws, if_true]
      exact ih (noTwoWS_tail h)
    | false =>
      simp only [trimStart, List.dropWhile_cons, hws, Bool.false_eq_true,
        if_false]
      exact h

lemma collapseWSGo_length : ∀ (l : Str) (bf : Bool),
    (collapseWSGo bf l).length ≤ l.length := by
  intro l
  induction l with
  | nil => intro bf; exact Nat.le_refl 0
  | cons a rest ih =>
    intro bf
    cases hws : isJsWS a with
    | true =>
      cases bf with
      | true =>
        simp only [collapseWSGo, hws, if_true]
        exact le_trans (ih true) (Nat.le_succ _)
      | false =>
        simp only [collapseWSGo, hws, if_true, List.length_cons]
        exact Nat.succ_le_succ (ih true)
    | false =>
      simp only [collapseWSGo, hws, Bool.false_eq_true, if_false,
        List.length_cons]
      exact Nat.succ_le_succ (ih false)

lemma trimEnd_length : ∀ l : Str, (trimEnd l).length ≤ l.length := by
  intro l
  induction l with
  | nil => exact Nat.le_refl 0
  | cons a rest ih =>
    rw [trimEnd_cons]
    cases ht : trimEnd rest with
    | nil =>
      cases hws : isJsWS a with
      | true => simp [hws]
      | false => simp [hws]
    | cons x xs =>
      simp only [List.length_cons]
      have h1 := ih
      rw [ht] at h1
      exact Nat.succ_le_succ h1

/-- C4 counterexample: deleting the removed character `'@'` merges the two
spaces around it, so a second `cleanText` pass collapses them — the
normalizer is not idempotent. -/
theorem cleanText_not_idempotent_counterexample :
    cleanText (cleanText ("a @ b".toList)) ≠ cleanText ("a @ b".toList) ∧
    cleanText ("a @ b".toList) = ("a  b".toList) ∧
    cleanText (cleanText ("a @ b".toList)) = ("a b".toList) :=
  ⟨by decide, by decide, by decide⟩

/-- C4 (amended): `cleanText` is idempotent on strings of length at most
8000 all of whose characters survive the special-character filter (word
characters, whitespace, `. , ! ? -`); in general a removed character can
merge two whitespace runs, so idempotence fails. -/
theorem cleanText_idempotent_on_kept (l : Str)
    (hlen : l.length ≤ 8000)
    (hkeep : ∀ c ∈ l, keepChar c = true) :
    cleanText (cleanText l) = cleanText l := by
  have hAspace : ∀ c ∈ collapseWS l, isJsWS c = true → c = ' ' :=
    fun c hc => collapseWSGo_space l false c hc
  have hAkeep : ∀ c ∈ collapseWS l, keepChar c = true := by
    intro c hc
    rcases collapseWSGo_mem l false c hc with h | h
    · rw [h]; decide
    · exact hkeep c h
  have hAtwo : noTwoWS (collapseWS l) = true := (collapseWSGo_invariant l).1 false
  have hfA : (collapseWS l).filter keepChar = collapseWS l :=
    List.filter_eq_self.mpr hAkeep
  have hylen : (trimBoth (collapseWS l)).length ≤ 8000 := by
    have h1 : (trimEnd (trimStart (collapseWS l))).length ≤
        (trimStart (collapseWS l)).length := trimEnd_length _
    have h2 : (trimStart (collapseWS l)).length ≤ (collapseWS l).length :=
      (List.dropWhile_sublist _).length_le
    have h3 : (collapseWS l).length ≤ l.length := collapseWSGo_length l false
    calc (trimBoth (collapseWS l)).length
        ≤ (trimStart (collapseWS l)).length := h1
      _ ≤ (collapseWS l).length := h2
      _ ≤ l.length := h3
      _ ≤ 8000 := hlen
  have hclean1 : cleanText l = trimBoth (collapseWS l) := by
    rw [cleanText, hfA]
    exact List.take_of_length_le hylen
  have hysub : ∀ c ∈ trimBoth (collapseWS l), c ∈ collapseWS l := by
    intro c hc
    exact (List.dropWhile_sublist _).mem (trimEnd_mem hc)
  have hytwo : noTwoWS (trimBoth (collapseWS l)) = true :=
    noTwoWS_trimEnd (noTwoWS_trimStart hAtwo)
  have hyspace : ∀ c ∈ trimBoth (collapseWS l), isJsWS c = true → c = ' ' :=
    fun c hc => hAspace c (hysub c hc)
  have hykeep : ∀ c ∈ trimBoth (collapseWS l), keepChar c = true :=
    fun c hc => hAkeep c (hysub c hc)
  have hyhead : ∀ d, (trimBoth (collapseWS l)).head? = some d →
      isJsWS d = false := by
    intro d hd
    rcases trimEnd_head? (trimStart (collapseWS l)) with h | h
    · rw [trimBoth, h] at hd
      cases hd
    · rw [trimBoth, h] at hd
      exact trimStart_head (collapseWS l) d hd
  have hcy : collapseWS (trimBoth (collapseWS l)) = trimBoth (collapseWS l) :=
    (collapseWSGo_eq_self _ hyspace hytwo).1
  have hts : trimStart (trimBoth (collapseWS l)) = trimBoth (collapseWS l) :=
    trimStart_of_head_not _ hyhead
  have hte : trimEnd (trimBoth (collapseWS l)) = trimBoth (collapseWS l) := by
    rw [trimBoth, trimEnd_idem]
  rw [hclean1, cleanText, hcy, List.filter_eq_self.mpr hykeep, trimBoth, hts,
    hte]
  exact List.take_of_length_le hylen

/-- C4 witness: a short all-kept string is a fixed point after one pass. -/
theorem cleanText_idempotent_on_kept_witness :
    (("ab  c,d".toList).length ≤ 8000 ∧
      ∀ c ∈ ("ab  c,d".toList), keepChar c = true) ∧
    cleanText (cleanText ("ab  c,d".toList)) = cleanText ("ab  c,d".toList) :=
  ⟨⟨by decide, by decide⟩,
    cleanText_idempotent_on_kept ("ab  c,d".toList) (by decide) (by decide)⟩

/-- A sum of squares is non-negative. -/
lemma sum_map_sq_nonneg (a : List ℝ) : 0 ≤ (a.map fun x => x * x).sum := by
  induction a with
  | nil => simp
  | cons x rest ih =>
    simp only [List.map_cons, List.sum_cons]
    have := mul_self_nonneg x
    linarith

/-- A sum of squares with a non-zero member is positive. -/
lemma sum_map_sq_pos : ∀ {a : List ℝ}, (∃ x ∈ a, x ≠ 0) →
    0 < (a.map fun x => x * x).sum := by
  intro a
  induction a with
  | nil => rintro ⟨x, hx, _⟩; cases hx
  | cons y rest ih =>
    rintro ⟨x, hx, hx0⟩
    simp only [List.map_cons, List.sum_cons]
    rcases List.mem_cons.mp hx with h1 | h1
    · have hy : 0 < y * y := by
        rw [← h1]
        exact mul_self_pos.mpr hx0
      have h2 := sum_map_sq_nonneg rest
      linarith
    · have h2 := ih ⟨x, h1, hx0⟩
      have hy := mul_self_nonneg y
      linarith

/-- Cauchy–Schwarz for list dot products, squared form. -/
lemma list_cauchy_schwarz : ∀ (a b : List ℝ),
    ((List.zipWith (fun x y => x * y) a b).sum) ^ 2 ≤
      (a.map fun x => x * x).sum * (b.map fun x => x * x).sum := by
  intro a
  induction a with
  | nil => intro b; simp
  | cons x a' ih =>
    intro b
    cases b with
    | nil => simp [sum_map_sq_nonneg]
    | cons y b' =>
      simp only [List.zipWith_cons_cons, List.sum_cons, List.map_cons]
      have IH := ih b'
      have hA := sum_map_sq_nonneg a'
      have hB := sum_map_sq_nonneg b'
      set S := (List.zipWith (fun x y => x * y) a' b').sum with hS
      set A := (a'.map fun x => x * x).sum with hA'
      set B := (b'.map fun x => x * x).sum with hB'
      rcases eq_or_lt_of_le hA with hA0 | hA0
      · have hS0 : S = 0 := by
          have h1 : S ^ 2 ≤ 0 := by
            calc S ^ 2 ≤ A * B := IH
              _ = 0 := by rw [← hA0, zero_mul]
          have h2 := sq_nonneg S
          have h3 : S ^ 2 = 0 := le_antisymm h1 h2
          exact pow_eq_zero_iff two_ne_zero |>.mp h3
        rw [hS0, ← hA0]
        have hx2B := mul_nonneg (mul_self_nonneg x) hB
        nlinarith [mul_self_nonneg y, mul_self_nonneg x]
      · nlinarith [sq_nonneg (x * S - y * A),
          mul_nonneg (mul_self_nonneg x) (sub_nonneg.mpr IH),
          mul_nonneg hA0.le (sub_nonneg.mpr IH), hA0, hB, IH]

/-- Dotting a vector with itself sums the squares. -/
lemma zipWith_mul_self (a : List ℝ) :
    List.zipWith (fun x y => x * y) a a = a.map fun x => x * x := by
  induction a with
  | nil => rfl
  | cons x rest ih => simp [ih]

/-- C5: any `ok` result of `calculateCosineSimilarity` lies in `[-1, 1]`;
self-similarity of a vector with non-zero square sum is exactly 1; a zero
magnitude on either side gives `ok 0` (a defined edge case); unequal
lengths throw the dimension-mismatch error; and a vector with a non-zero
entry has non-zero square sum (so "nonzero vector" implies the
self-similarity case applies). -/
theorem calculateCosineSimilarity_props (a b : List ℝ) :
    (∀ r : ℝ, calculateCosineSimilarity a b = .ok r → -1 ≤ r ∧ r ≤ 1) ∧
    ((a.map fun x => x * x).sum ≠ 0 → calculateCosineSimilarity a a = .ok 1) ∧
    (a.length = b.length →
      ((a.map fun x => x * x).sum = 0 ∨ (b.map fun x => x * x).sum = 0) →
      calculateCosineSimilarity a b = .ok 0) ∧
    (a.length ≠ b.length →
      calculateCosineSimilarity a b =
        .error "Vectors must have the same dimensions") ∧
    ((∃ x ∈ a, x ≠ 0) → (a.map fun x => x * x).sum ≠ 0) := by
  refine ⟨?_, ?_, ?_, ?_, fun h => ne_of_gt (sum_map_sq_pos h)⟩
  · intro r hr
    simp only [calculateCosineSimilarity] at hr
    by_cases hlen : a.length ≠ b.length
    · rw [if_pos hlen] at hr
      cases hr
    · rw [if_neg hlen] at hr
      by_cases hz : (a.map fun x => x * x).sum = 0 ∨
          (b.map fun x => x * x).sum = 0
      · rw [if_pos hz] at hr
        injection hr with hr1
        rw [← hr1]
        norm_num
      · rw [if_neg hz] at hr
        injection hr with hr1
        push_neg at hz
        have hA : 0 < (a.map fun x => x * x).sum :=
          lt_of_le_of_ne (sum_map_sq_nonneg a) (Ne.symm hz.1)
        have hB : 0 < (b.map fun x => x * x).sum :=
          lt_of_le_of_ne (sum_map_sq_nonneg b) (Ne.symm hz.2)
        have hsA : 0 < Real.sqrt ((a.map fun x => x * x).sum) :=
          Real.sqrt_pos.mpr hA
        have hsB : 0 < Real.sqrt ((b.map fun x => x * x).sum) :=
          Real.sqrt_pos.mpr hB
        have habs : |(List.zipWith (fun x y => x * y) a b).sum| ≤
            Real.sqrt ((a.map fun x => x * x).sum) *
              Real.sqrt ((b.map fun x => x * x).sum) := by
          have h1 := Real.abs_le_sqrt (list_cauchy_schwarz a b)
          rw [Real.sqrt_mul hA.le] at h1
          exact h1
        have hden : 0 < Real.sqrt ((a.map fun x => x * x).sum) *
            Real.sqrt ((b.map fun x => x * x).sum) := mul_pos hsA hsB
        have hr2 : |r| ≤ 1 := by
          rw [← hr1, abs_div, abs_of_pos hden]
          exact (div_le_one hden).mpr habs
        exact abs_le.mp hr2
  · intro hA
    simp only [calculateCosineSimilarity]
    rw [if_neg (by simp)]
    rw [if_neg (by simpa [or_self] using hA)]
    have hzz := zipWith_mul_self a
    rw [hzz]
    have hA0 : 0 ≤ (a.map fun x => x * x).sum := sum_map_sq_nonneg a
    rw [Real.mul_self_sqrt hA0, div_self hA]
  · intro hlen hz
    simp only [calculateCosineSimilarity]
    rw [if_neg (by simp [hlen])]
    rw [if_pos hz]
  · intro hlen
    simp only [calculateCosineSimilarity]
    rw [if_pos hlen]

/-- C5 witness: concrete evaluations — self-similarity 1 on `[1]`, zero
vector gives 0, and a 1-vs-2 length call errors; the `ok 1` lies in
`[-1, 1]` by the bounds clause. -/
theorem calculateCosineSimilarity_props_witness :
    calculateCosineSimilarity [(1 : ℝ)] [(1 : ℝ)] = .ok 1 ∧
    (-1 ≤ (1 : ℝ) ∧ (1 : ℝ) ≤ 1) ∧
    calculateCosineSimilarity [(0 : ℝ)] [(5 : ℝ)] = .ok 0 ∧
    calculateCosineSimilarity [(1 : ℝ)] [(1 : ℝ), (2 : ℝ)] =
      .error "Vectors must have the same dimensions" := by
  have h1 := (calculateCosineSimilarity_props [(1 : ℝ)] [(1 : ℝ)]).2.1
    (by simp)
  have hb := (calculateCosineSimilarity_props [(1 : ℝ)] [(1 : ℝ)]).1 1 h1
  have h0 := (calculateCosineSimilarity_props [(0 : ℝ)] [(5 : ℝ)]).2.2.1
    (by simp) (by simp)
  have hm := (calculateCosineSimilarity_props [(1 : ℝ)]
    [(1 : ℝ), (2 : ℝ)]).2.2.2.1 (by simp)
  exact ⟨h1, hb, h0, hm⟩
